import Mathlib

/-!
Shallow embedding of the cargo dependency-audit tool: the vulnerability
scanner (`src/scanner.rs`) and the SBOM builder (`src/get_sbom.rs`).

Pure data is translated structure-for-structure; the scanner's imperative
loops become folds over the same step functions; filesystem and git effects
taken by `Scanner::new` are passed in as explicit `Except`-valued inputs.
String operations from the Rust standard library (`to_uppercase`,
`str::contains`) are modelled over the underlying character lists so that
every definition evaluates inside the kernel.
-/

namespace VulnScan

/-- Semantic version (`semver::Version`), restricted to the numeric triple the
scanned code ever inspects. -/
structure Version where
  major : Nat
  minor : Nat
  patch : Nat
  deriving DecidableEq, Repr

/-- Rendering of a version, modelling `Version::to_string()`. -/
def versionToString (v : Version) : String :=
  toString v.major ++ "." ++ toString v.minor ++ "." ++ toString v.patch

/-- A semver requirement (`semver::VersionReq`): its matching predicate
(`VersionReq::matches`) together with its display string (`to_string()`). -/
structure VersionReq where
  matchesVersion : Version → Bool
  display : String

/-- Version-range data attached to an advisory: the `patched` and `unaffected`
requirement sets (`advisory.versions.patched()` / `.unaffected()`). -/
structure VersionInfo where
  patched : List VersionReq
  unaffected : List VersionReq

/-- An advisory record (`rustsec::advisory::Advisory`), restricted to the
fields the scanner reads.  `cvss_severity` models
`metadata.cvss.as_ref().map(|c| c.severity().to_string())`; `withdrawn` and
`informational` are only ever tested with `is_some()`. -/
structure Advisory where
  id : String
  package : String
  description : String
  cvss_severity : Option String
  withdrawn : Option String
  informational : Option String
  references : List String
  versions : VersionInfo

/-- The advisory database: `Database::iter()` yields the records in a fixed
iteration order, modelled as a list. -/
abbrev Database := List Advisory

/-- The scanner owns the loaded advisory database. -/
structure Scanner where
  db : Database

/-- A direct-dependency entry of a lockfile package
(`cargo_lock::package::Dependency`); only its `name` is ever read. -/
structure Dependency where
  name : String
  version : Option Version := none
  deriving DecidableEq, Repr

/-- A lockfile package (`cargo_lock::Package`), restricted to the fields read
by the scanner and the SBOM builder. -/
structure Package where
  name : String
  version : Version
  dependencies : List Dependency
  source : Option String := none
  checksum : Option String := none
  deriving DecidableEq, Repr

/-- A parsed `Cargo.lock` (`cargo_lock::Lockfile`); only `packages` is read. -/
structure Lockfile where
  packages : List Package

structure AdvisoryFinding where
  id : String
  description : String
  severity : Option String
  unaffected_versions : String
  patched_versions : Option String
  references : List String
  deriving DecidableEq, Repr

structure PackageReport where
  package_name : String
  package_version : String
  advisories : List AdvisoryFinding
  deriving DecidableEq, Repr

structure SeverityCounts where
  critical : Nat
  high : Nat
  medium : Nat
  low : Nat
  unknown : Nat
  deriving DecidableEq, Repr

/-- The all-zero histogram produced by `SeverityCounts::default()`. -/
def SeverityCounts.zero : SeverityCounts :=
  { critical := 0, high := 0, medium := 0, low := 0, unknown := 0 }

structure Summary where
  total_vulnerabilities : Nat
  by_severity : SeverityCounts
  deriving DecidableEq, Repr

structure VulnReport where
  total_packages : Nat
  packages : List PackageReport
  summary : Summary
  deriving DecidableEq, Repr

/-- Uppercasing, modelling `str::to_uppercase` (the severity labels involved
are ASCII).  Written over the character list so it reduces in the kernel. -/
def toUppercase (s : String) : String :=
  String.mk (s.data.map Char.toUpper)

/-- Whether `pat` is a prefix of the second list (helper for substring
containment). -/
def listStartsWith : List Char → List Char → Bool
  | [], _ => true
  | _ :: _, [] => false
  | p :: ps, c :: cs => p == c && listStartsWith ps cs

/-- Whether `pat` occurs as a contiguous sublist. -/
def listContainsSub (pat : List Char) : List Char → Bool
  | [] => pat.isEmpty
  | c :: cs => listStartsWith pat (c :: cs) || listContainsSub pat cs

/-- Substring containment, modelling `str::contains(&str)`. -/
def strContainsSub (s pat : String) : Bool :=
  listContainsSub pat.data s.data

/-- Character containment, modelling `str::contains(char)`. -/
def strContainsChar (s : String) (c : Char) : Bool :=
  s.data.contains c

/-- The affected-version decision rule (`Scanner::is_version_affected`):
patched ranges checked first, then unaffected ranges, otherwise affected. -/
def is_version_affected (version : Version) (advisory : Advisory) : Bool :=
  if advisory.versions.patched.any (fun req => req.matchesVersion version) then false
  else if advisory.versions.unaffected.any (fun req => req.matchesVersion version) then false
  else true

/-- Building one finding from an advisory (`Scanner::create_advisory_finding`). -/
def create_advisory_finding (advisory : Advisory) : AdvisoryFinding :=
  { id := advisory.id
    description := advisory.description
    severity := advisory.cvss_severity
    unaffected_versions :=
      String.intercalate ", " (advisory.versions.unaffected.map VersionReq.display)
    patched_versions :=
      if !advisory.versions.patched.isEmpty then
        some (String.intercalate ", " (advisory.versions.patched.map VersionReq.display))
      else none
    references := advisory.references }

/-- The per-package advisory index.  The source uses a
`HashMap<String, Vec<&Advisory>>` that is only ever read through keyed `get`,
so an association list with the same lookup/update behaviour is an
observationally faithful model. -/
abbrev AdvisoryIndex := List (String × List Advisory)

def lookupIndex : AdvisoryIndex → String → Option (List Advisory)
  | [], _ => none
  | (k, advs) :: rest, name => if k = name then some advs else lookupIndex rest name

/-- Appending one advisory to its package's bucket, modelling
`by_package.entry(name).or_default().push(adv)`. -/
def insertAdvisory : AdvisoryIndex → String → Advisory → AdvisoryIndex
  | [], name, adv => [(name, [adv])]
  | (k, advs) :: rest, name, adv =>
    if k = name then (k, advs ++ [adv]) :: rest
    else (k, advs) :: insertAdvisory rest name adv

/-- One iteration of the index-building loop in `scan_lockfile`: withdrawn and
informational advisories are skipped, the rest are pushed to their bucket. -/
def indexStep (idx : AdvisoryIndex) (adv : Advisory) : AdvisoryIndex :=
  if adv.withdrawn.isSome || adv.informational.isSome then idx
  else insertAdvisory idx adv.package adv

/-- The `by_package` index built from the whole database. -/
def buildIndex (db : Database) : AdvisoryIndex :=
  db.foldl indexStep []

/-- The severity-histogram update of `scan_lockfile`: the label is upper-cased
and matched against the four known buckets, everything else (including a
missing severity) counts as `unknown`. -/
def bumpSeverity (counts : SeverityCounts) (sev : Option String) : SeverityCounts :=
  match sev with
  | some s =>
    match toUppercase s with
    | "CRITICAL" => { counts with critical := counts.critical + 1 }
    | "HIGH" => { counts with high := counts.high + 1 }
    | "MEDIUM" => { counts with medium := counts.medium + 1 }
    | "LOW" => { counts with low := counts.low + 1 }
    | _ => { counts with unknown := counts.unknown + 1 }
  | none => { counts with unknown := counts.unknown + 1 }

/-- One iteration of the inner advisory loop of `scan_lockfile`: an affected
pairing appends a finding and updates the histogram. -/
def scanAdvisoryStep (version : Version) (acc : List AdvisoryFinding × SeverityCounts)
    (advisory : Advisory) : List AdvisoryFinding × SeverityCounts :=
  if is_version_affected version advisory then
    let f := create_advisory_finding advisory
    (acc.1 ++ [f], bumpSeverity acc.2 f.severity)
  else acc

/-- Scanning one package against its index bucket (`if let Some(advs) = ...`). -/
def scanPackage (idx : AdvisoryIndex) (pkg : Package) (counts : SeverityCounts) :
    List AdvisoryFinding × SeverityCounts :=
  match lookupIndex idx pkg.name with
  | some advs => advs.foldl (scanAdvisoryStep pkg.version) ([], counts)
  | none => ([], counts)

/-- One iteration of the outer package loop of `scan_lockfile`: a package with
a non-empty findings list contributes one report entry. -/
def scanStep (idx : AdvisoryIndex) (acc : List PackageReport × SeverityCounts)
    (pkg : Package) : List PackageReport × SeverityCounts :=
  let scanned := scanPackage idx pkg acc.2
  if scanned.1.isEmpty then (acc.1, scanned.2)
  else
    (acc.1 ++ [{ package_name := pkg.name
                 package_version := versionToString pkg.version
                 advisories := scanned.1 }],
     scanned.2)

/-- `Scanner::scan_lockfile`: build the index, scan every package, then total
the findings by re-summing the per-package lists. -/
def Scanner.scan_lockfile (scanner : Scanner) (lockfile : Lockfile) :
    Except String VulnReport :=
  let by_package := buildIndex scanner.db
  let scanned := lockfile.packages.foldl (scanStep by_package) ([], SeverityCounts.zero)
  Except.ok
    { total_packages := lockfile.packages.length
      packages := scanned.1
      summary :=
        { total_vulnerabilities := (scanned.1.map (fun p => p.advisories.length)).sum
          by_severity := scanned.2 } }

/-- Handle to an opened advisory-db git repository
(`rustsec::repository::git::Repository`). -/
structure GitRepository where
  path : String

/-- `Scanner::new`: the filesystem check and the two fallible git/database
steps are passed in as explicit inputs (`openRepo` models `Repository::open`,
`loadFromRepo` models `Database::load_from_repo`). -/
def Scanner.new (pathExists : Bool) (openRepo : Except String GitRepository)
    (loadFromRepo : GitRepository → Except String Database) : Except String Scanner :=
  if !pathExists then Except.error "Advisory DB path does not exist"
  else
    match openRepo with
    | Except.error e => Except.error ("failed to open advisory DB git repository: " ++ e)
    | Except.ok repo =>
      match loadFromRepo repo with
      | Except.error e => Except.error ("failed to load advisory database: " ++ e)
      | Except.ok db => Except.ok { db := db }

structure LicenseChoice where
  id : Option String
  name : Option String
  deriving DecidableEq, Repr

structure License where
  license : Option LicenseChoice
  expression : Option String
  deriving DecidableEq, Repr

structure Component where
  component_type : String
  name : String
  version : String
  purl : Option String
  bom_ref : Option String
  licenses : Option (List License)
  deriving DecidableEq, Repr

/-- A CycloneDX dependency edge (the `Dependency` struct of `get_sbom.rs`):
`depends_on` is `None` rather than an empty list when nothing resolved. -/
structure SbomDependency where
  reference : String
  depends_on : Option (List String)
  deriving DecidableEq, Repr

structure Tool where
  vendor : String
  name : String
  version : String
  deriving DecidableEq, Repr

structure Metadata where
  timestamp : String
  tools : List Tool
  deriving DecidableEq, Repr

structure CycloneDxBom where
  bom_format : String
  spec_version : String
  version : Nat
  metadata : Metadata
  components : List Component
  dependencies : List SbomDependency
  deriving DecidableEq, Repr

/-- The license cache built by `fetch_all_licenses`: a
`HashMap<(String, String), String>` read only through keyed `get`, modelled as
an association list. -/
abbrev LicenseCache := List ((String × String) × String)

def lookupCache : LicenseCache → String × String → Option String
  | [], _ => none
  | (k, v) :: rest, key => if k = key then some v else lookupCache rest key

/-- `parse_license_expression`: strings containing ` OR `, ` AND ` or `/` are
kept verbatim as SPDX expressions, everything else becomes a structured id. -/
def parse_license_expression (license_str : String) : List License :=
  if strContainsSub license_str " OR " || strContainsSub license_str " AND " ||
      strContainsChar license_str '/' then
    [{ license := none, expression := some license_str }]
  else
    [{ license := some { id := some license_str, name := none }, expression := none }]

/-- The component pushed for one package in the loop of
`generate_sbom_from_lockfile`. -/
def componentFor (license_cache : LicenseCache) (package : Package) : Component :=
  let version := versionToString package.version
  let name := package.name
  { component_type := "library"
    name := name
    version := version
    purl := some ("pkg:cargo/" ++ name ++ "@" ++ version)
    bom_ref := some (name ++ "@" ++ version)
    licenses := (lookupCache license_cache (name, version)).map parse_license_expression }

/-- One iteration of the `depends_on` loop: resolve the dependency name
against the snapshot (`find` returns the first package with that name) and
push its reference, or drop the edge when the name is absent. -/
def resolveStep (lockfile : Lockfile) (acc : List String) (dep : Dependency) : List String :=
  match lockfile.packages.find? (fun p => p.name == dep.name) with
  | some dep_pkg => acc ++ [dep.name ++ "@" ++ versionToString dep_pkg.version]
  | none => acc

/-- The dependency entry pushed for one package in the loop of
`generate_sbom_from_lockfile`. -/
def dependencyFor (lockfile : Lockfile) (package : Package) : SbomDependency :=
  let depends_on := package.dependencies.foldl (resolveStep lockfile) []
  { reference := package.name ++ "@" ++ versionToString package.version
    depends_on := if depends_on.isEmpty then none else some depends_on }

/-- `generate_sbom_from_lockfile`, restricted to the in-memory document it
builds; the timestamp (`chrono::Utc::now()`) and the license cache produced by
the `cargo metadata` subprocess are explicit inputs, and the JSON
serialization / file write are outside the model. -/
def generate_sbom_from_lockfile (lockfile : Lockfile) (license_cache : LicenseCache)
    (timestamp : String) : CycloneDxBom :=
  let built := lockfile.packages.foldl
    (fun acc package =>
      (acc.1 ++ [componentFor license_cache package],
       acc.2 ++ [dependencyFor lockfile package]))
    ([], [])
  { bom_format := "CycloneDX"
    spec_version := "1.4"
    version := 1
    metadata :=
      { timestamp := timestamp
        tools := [{ vendor := "Custom", name := "cargo-sbom-generator", version := "1.0.0" }] }
    components := built.1
    dependencies := built.2 }

/-- An advisory that survives the index filter: neither withdrawn nor
informational. -/
def actionable (adv : Advisory) : Bool :=
  !(adv.withdrawn.isSome || adv.informational.isSome)

/-- The actionable advisories declared for a package name, in database
iteration order. -/
def actionableFor (db : Database) (name : String) : List Advisory :=
  db.filter (fun adv => actionable adv && adv.package == name)

/-- The findings the scan produces for one package, in database order. -/
def findingsForPkg (db : Database) (pkg : Package) : List AdvisoryFinding :=
  ((actionableFor db pkg.name).filter (fun a => is_version_affected pkg.version a)).map
    create_advisory_finding

/-- The report entry a package contributes, if any. -/
def entryFor (db : Database) (pkg : Package) : Option PackageReport :=
  let findings := findingsForPkg db pkg
  if findings.isEmpty then none
  else some { package_name := pkg.name
              package_version := versionToString pkg.version
              advisories := findings }

/-- Total of the five histogram buckets. -/
def sumCounts (c : SeverityCounts) : Nat :=
  c.critical + c.high + c.medium + c.low + c.unknown

/-- The reference string a dependency edge resolves to, if its name is present
in the snapshot. -/
def resolvedRef (lockfile : Lockfile) (dep : Dependency) : Option String :=
  (lockfile.packages.find? (fun p => p.name == dep.name)).map
    (fun dep_pkg => dep.name ++ "@" ++ versionToString dep_pkg.version)

/-- Histogram state after bucketing a list of findings. -/
def countsAfter (c : SeverityCounts) (fs : List AdvisoryFinding) : SeverityCounts :=
  fs.foldl (fun c2 f => bumpSeverity c2 f.severity) c

theorem lookupIndex_insertAdvisory (idx : AdvisoryIndex) (name : String) (adv : Advisory)
    (n : String) :
    lookupIndex (insertAdvisory idx name adv) n =
      if n = name then some ((lookupIndex idx name).getD [] ++ [adv])
      else lookupIndex idx n := by
  induction idx with
  | nil =>
    by_cases h : n = name
    · subst h; simp [insertAdvisory, lookupIndex]
    · simp [insertAdvisory, lookupIndex, h, Ne.symm h]
  | cons hd tl ih =>
    obtain ⟨k, advs⟩ := hd
    by_cases hk : k = name
    · subst hk
      simp only [insertAdvisory, if_pos rfl, lookupIndex]
      by_cases hn : k = n
      · subst hn; simp
      · simp [hn, Ne.symm hn]
    · simp only [insertAdvisory, if_neg hk, lookupIndex, ih]
      by_cases hkn : k = n
      · subst hkn
        simp [hk]
      · simp [hkn, hk]

theorem lookupIndex_foldl_indexStep (db : List Advisory) (acc : AdvisoryIndex) (n : String) :
    (lookupIndex (db.foldl indexStep acc) n).getD [] =
      (lookupIndex acc n).getD [] ++ actionableFor db n := by
  induction db generalizing acc with
  | nil => simp [actionableFor]
  | cons adv rest ih =>
    rw [List.foldl_cons, ih]
    by_cases ha : adv.withdrawn.isSome || adv.informational.isSome
    · have hact : actionable adv = false := by
        simp only [actionable, ha, Bool.not_true]
      simp only [indexStep, if_pos ha]
      rw [show actionableFor (adv :: rest) n = actionableFor rest n from by
        simp [actionableFor, List.filter_cons, hact]]
    · have hact : actionable adv = true := by simp [actionable, ha]
      simp only [indexStep, if_neg ha]
      rw [lookupIndex_insertAdvisory]
      by_cases hn : n = adv.package
      · subst hn
        simp [actionableFor, List.filter_cons, hact]
      · have : (adv.package == n) = false := by
          simp [hn, Ne.symm hn]
        simp [actionableFor, List.filter_cons, hact, this, hn]

/-- The index bucket for a name holds exactly the actionable advisories
declared for that name, in database order. -/
theorem lookupIndex_buildIndex (db : Database) (n : String) :
    (lookupIndex (buildIndex db) n).getD [] = actionableFor db n := by
  simpa [buildIndex, lookupIndex] using lookupIndex_foldl_indexStep db [] n

theorem mem_actionableFor {db : Database} {n : String} {adv : Advisory}
    (h : adv ∈ actionableFor db n) :
    adv ∈ db ∧ actionable adv = true ∧ adv.package = n := by
  rw [actionableFor, List.mem_filter] at h
  obtain ⟨hmem, hcond⟩ := h
  rw [Bool.and_eq_true, beq_iff_eq] at hcond
  exact ⟨hmem, hcond.1, hcond.2⟩

theorem foldl_scanAdvisoryStep (v : Version) (advs : List Advisory)
    (accL : List AdvisoryFinding) (c : SeverityCounts) :
    advs.foldl (scanAdvisoryStep v) (accL, c) =
      (accL ++ (advs.filter (fun a => is_version_affected v a)).map create_advisory_finding,
       countsAfter c
         ((advs.filter (fun a => is_version_affected v a)).map create_advisory_finding)) := by
  induction advs generalizing accL c with
  | nil => simp [countsAfter]
  | cons a rest ih =>
    by_cases h : is_version_affected v a
    · simp [scanAdvisoryStep, h, ih, List.filter_cons, countsAfter]
    · simp [scanAdvisoryStep, h, ih, List.filter_cons]

/-- What the scan of a single package produces, phrased against the database
rather than the index. -/
theorem scanPackage_buildIndex (db : Database) (pkg : Package) (c : SeverityCounts) :
    scanPackage (buildIndex db) pkg c =
      (findingsForPkg db pkg, countsAfter c (findingsForPkg db pkg)) := by
  have hbucket := lookupIndex_buildIndex db pkg.name
  cases hl : lookupIndex (buildIndex db) pkg.name with
  | none =>
    rw [hl] at hbucket
    simp only [Option.getD_none] at hbucket
    have hempty : actionableFor db pkg.name = [] := hbucket.symm
    simp [scanPackage, hl, findingsForPkg, hempty, countsAfter]
  | some advs =>
    rw [hl] at hbucket
    simp only [Option.getD_some] at hbucket
    simp [scanPackage, hl, foldl_scanAdvisoryStep, findingsForPkg, hbucket]

theorem sumCounts_bumpSeverity (c : SeverityCounts) (sev : Option String) :
    sumCounts (bumpSeverity c sev) = sumCounts c + 1 := by
  cases sev with
  | none => simp [bumpSeverity, sumCounts]; omega
  | some s =>
    simp only [bumpSeverity]
    split <;> simp [sumCounts] <;> omega

theorem sumCounts_countsAfter (fs : List AdvisoryFinding) (c : SeverityCounts) :
    sumCounts (countsAfter c fs) = sumCounts c + fs.length := by
  induction fs generalizing c with
  | nil => simp [countsAfter]
  | cons f rest ih =>
    have hstep : countsAfter c (f :: rest) = countsAfter (bumpSeverity c f.severity) rest := rfl
    rw [hstep, ih, sumCounts_bumpSeverity, List.length_cons]
    omega

theorem foldl_scanStep (db : Database) (pkgs : List Package)
    (accR : List PackageReport) (accC : SeverityCounts) :
    pkgs.foldl (scanStep (buildIndex db)) (accR, accC) =
      (accR ++ pkgs.filterMap (entryFor db),
       pkgs.foldl (fun c pkg => countsAfter c (findingsForPkg db pkg)) accC) := by
  induction pkgs generalizing accR accC with
  | nil => simp
  | cons pkg rest ih =>
    simp only [List.foldl_cons, scanStep, scanPackage_buildIndex]
    by_cases h : (findingsForPkg db pkg).isEmpty
    · have hentry : entryFor db pkg = none := by simp [entryFor, h]
      simp [h, ih, List.filterMap_cons, hentry]
    · have hentry : entryFor db pkg =
          some { package_name := pkg.name
                 package_version := versionToString pkg.version
                 advisories := findingsForPkg db pkg } := by
        simp [entryFor, h]
      simp [h, ih, List.filterMap_cons, hentry]

/-- Closed form of `scan_lockfile`: the report it returns, phrased with
`entryFor`/`findingsForPkg`. -/
theorem scan_lockfile_eq (scanner : Scanner) (lockfile : Lockfile) :
    scanner.scan_lockfile lockfile = Except.ok
      { total_packages := lockfile.packages.length
        packages := lockfile.packages.filterMap (entryFor scanner.db)
        summary :=
          { total_vulnerabilities :=
              ((lockfile.packages.filterMap (entryFor scanner.db)).map
                (fun p => p.advisories.length)).sum
            by_severity :=
              lockfile.packages.foldl
                (fun c pkg => countsAfter c (findingsForPkg scanner.db pkg))
                SeverityCounts.zero } } := by
  simp only [Scanner.scan_lockfile]
  rw [foldl_scanStep]
  simp

theorem sum_entry_lengths (db : Database) (pkgs : List Package) :
    ((pkgs.filterMap (entryFor db)).map (fun p => p.advisories.length)).sum =
      (pkgs.map (fun p => (findingsForPkg db p).length)).sum := by
  induction pkgs with
  | nil => simp
  | cons pkg rest ih =>
    by_cases h : (findingsForPkg db pkg).isEmpty
    · have h0 : (findingsForPkg db pkg).length = 0 := by
        rw [List.isEmpty_iff] at h; simp [h]
      simp [List.filterMap_cons, entryFor, h, ih, h0]
    · simp [List.filterMap_cons, entryFor, h, ih]

theorem sumCounts_scan_foldl (db : Database) (pkgs : List Package) (accC : SeverityCounts) :
    sumCounts (pkgs.foldl (fun c pkg => countsAfter c (findingsForPkg db pkg)) accC) =
      sumCounts accC + (pkgs.map (fun p => (findingsForPkg db p).length)).sum := by
  induction pkgs generalizing accC with
  | nil => simp
  | cons pkg rest ih =>
    simp only [List.foldl_cons, List.map_cons, List.sum_cons]
    rw [ih, sumCounts_countsAfter]
    omega

theorem entryFor_eq_some {db : Database} {pkg : Package} {e : PackageReport}
    (h : entryFor db pkg = some e) :
    e.package_name = pkg.name ∧ e.package_version = versionToString pkg.version ∧
    e.advisories = findingsForPkg db pkg ∧ findingsForPkg db pkg ≠ [] := by
  unfold entryFor at h
  by_cases hfe : (findingsForPkg db pkg).isEmpty
  · simp [hfe] at h
  · simp only [hfe, Bool.false_eq_true, if_false, Option.some.injEq] at h
    subst h
    refine ⟨rfl, rfl, rfl, ?_⟩
    intro hnil
    rw [← List.isEmpty_iff] at hnil
    exact hfe hnil

theorem entryFor_of_nonempty {db : Database} {pkg : Package}
    (h : findingsForPkg db pkg ≠ []) :
    entryFor db pkg =
      some { package_name := pkg.name
             package_version := versionToString pkg.version
             advisories := findingsForPkg db pkg } := by
  have hfe : (findingsForPkg db pkg).isEmpty = false := by
    rw [Bool.eq_false_iff]
    intro hx
    exact h (List.isEmpty_iff.mp hx)
  unfold entryFor
  simp [hfe]

theorem foldl_resolveStep (lockfile : Lockfile) (deps : List Dependency) (acc : List String) :
    deps.foldl (resolveStep lockfile) acc = acc ++ deps.filterMap (resolvedRef lockfile) := by
  induction deps generalizing acc with
  | nil => simp
  | cons dep rest ih =>
    cases hf : lockfile.packages.find? (fun p => p.name == dep.name) with
    | none => simp [resolveStep, hf, ih, List.filterMap_cons, resolvedRef]
    | some dep_pkg => simp [resolveStep, hf, ih, List.filterMap_cons, resolvedRef]

/-- Closed form of one dependency entry: the `depends_on` loop keeps exactly
the resolvable edges, in dependency order. -/
theorem dependencyFor_eq (lockfile : Lockfile) (package : Package) :
    dependencyFor lockfile package =
      { reference := package.name ++ "@" ++ versionToString package.version
        depends_on :=
          if (package.dependencies.filterMap (resolvedRef lockfile)).isEmpty then none
          else some (package.dependencies.filterMap (resolvedRef lockfile)) } := by
  simp [dependencyFor, foldl_resolveStep]

theorem foldl_sbomStep (lockfile : Lockfile) (license_cache : LicenseCache)
    (pkgs : List Package) (accC : List Component) (accD : List SbomDependency) :
    pkgs.foldl
      (fun acc package =>
        (acc.1 ++ [componentFor license_cache package],
         acc.2 ++ [dependencyFor lockfile package]))
      (accC, accD) =
      (accC ++ pkgs.map (componentFor license_cache),
       accD ++ pkgs.map (dependencyFor lockfile)) := by
  induction pkgs generalizing accC accD with
  | nil => simp
  | cons p rest ih => simp [ih]

/-- Closed form of the document built by `generate_sbom_from_lockfile`. -/
theorem generate_sbom_eq (lockfile : Lockfile) (license_cache : LicenseCache)
    (timestamp : String) :
    generate_sbom_from_lockfile lockfile license_cache timestamp =
      { bom_format := "CycloneDX"
        spec_version := "1.4"
        version := 1
        metadata :=
          { timestamp := timestamp
            tools := [{ vendor := "Custom", name := "cargo-sbom-generator", version := "1.0.0" }] }
        components := lockfile.packages.map (componentFor license_cache)
        dependencies := lockfile.packages.map (dependencyFor lockfile) } := by
  simp only [generate_sbom_from_lockfile]
  rw [foldl_sbomStep]
  simp

/-- A concrete requirement matching every version from 2.1.0 on. -/
def reqFrom210 : VersionReq :=
  { matchesVersion := fun v => decide (2 < v.major ∨ (v.major = 2 ∧ 1 ≤ v.minor))
    display := ">=2.1.0" }

/-- Concrete actionable advisory for package `b` with a patched range. -/
def advB : Advisory :=
  { id := "RUSTSEC-0001"
    package := "b"
    description := "memory bug"
    cvss_severity := some "High"
    withdrawn := none
    informational := none
    references := ["https://example.com/0001"]
    versions := { patched := [reqFrom210], unaffected := [] } }

/-- Concrete withdrawn advisory for package `b`. -/
def advBWithdrawn : Advisory :=
  { id := "RUSTSEC-0002"
    package := "b"
    description := "withdrawn bug"
    cvss_severity := some "Critical"
    withdrawn := some "2024-01-01"
    informational := none
    references := []
    versions := { patched := [], unaffected := [] } }

/-- Concrete advisory for package `c` with no ranges and no severity. -/
def advC : Advisory :=
  { id := "RUSTSEC-0003"
    package := "c"
    description := "always affected"
    cvss_severity := none
    withdrawn := none
    informational := none
    references := []
    versions := { patched := [], unaffected := [] } }

def testDb : Database := [advB, advBWithdrawn, advC]

def testScanner : Scanner := { db := testDb }

def pkgA : Package :=
  { name := "a", version := { major := 1, minor := 0, patch := 0 },
    dependencies := [{ name := "b" }] }

def pkgB : Package :=
  { name := "b", version := { major := 2, minor := 0, patch := 0 }, dependencies := [] }

def pkgB2 : Package :=
  { name := "b", version := { major := 2, minor := 1, patch := 0 }, dependencies := [] }

def pkgC : Package :=
  { name := "c", version := { major := 0, minor := 1, patch := 0 },
    dependencies := [{ name := "zzz" }] }

def testLockfile : Lockfile := { packages := [pkgA, pkgB, pkgB2, pkgC] }

/-- The report the scanner produces on the concrete test inputs. -/
def testReport : VulnReport :=
  ((testScanner.scan_lockfile testLockfile).toOption).getD
    { total_packages := 0, packages := []
      summary := { total_vulnerabilities := 0, by_severity := SeverityCounts.zero } }

/-- C1: the affected-version decision rule: a version matching any patched
range is judged NOT affected (patched takes precedence, whatever the
unaffected set holds); otherwise a version matching any unaffected range is
NOT affected; otherwise the pair is AFFECTED. -/
theorem claim_affected_decision_rule (v : Version) (a : Advisory) :
    (a.versions.patched.any (fun req => req.matchesVersion v) = true →
      is_version_affected v a = false) ∧
    (a.versions.patched.any (fun req => req.matchesVersion v) = false →
      a.versions.unaffected.any (fun req => req.matchesVersion v) = true →
      is_version_affected v a = false) ∧
    (a.versions.patched.any (fun req => req.matchesVersion v) = false →
      a.versions.unaffected.any (fun req => req.matchesVersion v) = false →
      is_version_affected v a = true) := by
  refine ⟨fun hp => ?_, fun hp hu => ?_, fun hp hu => ?_⟩
  · simp [is_version_affected, hp]
  · simp [is_version_affected, hp, hu]
  · simp [is_version_affected, hp, hu]

theorem claim_affected_decision_rule_witness :
    advB.versions.patched.any
      (fun req => req.matchesVersion { major := 2, minor := 1, patch := 0 }) = true ∧
    is_version_affected { major := 2, minor := 1, patch := 0 } advB = false :=
  ⟨by decide,
   (claim_affected_decision_rule { major := 2, minor := 1, patch := 0 } advB).1 (by decide)⟩

/-- C4: `Scanner::new` fails when the advisory-db path does not exist, when
the git repository cannot be opened, or when the database cannot be loaded;
once a Scanner exists, `scan_lockfile` returns Ok on every lockfile. -/
theorem claim_scanner_error_split :
    (∀ openRepo loadFromRepo, (Scanner.new false openRepo loadFromRepo).isOk = false) ∧
    (∀ msg loadFromRepo, (Scanner.new true (Except.error msg) loadFromRepo).isOk = false) ∧
    (∀ openRepo msg,
      (Scanner.new true openRepo (fun _ => Except.error msg)).isOk = false) ∧
    (∀ (scanner : Scanner) (lockfile : Lockfile),
      (scanner.scan_lockfile lockfile).isOk = true) := by
  refine ⟨?_, ?_, ?_, ?_⟩
  · intro o l
    simp [Scanner.new, Except.isOk, Except.toBool]
  · intro m l
    simp [Scanner.new, Except.isOk, Except.toBool]
  · intro o m
    cases o <;> simp [Scanner.new, Except.isOk, Except.toBool]
  · intro s lf
    rw [scan_lockfile_eq]
    rfl

/-- C6: the SBOM has one component per snapshot package, and each component's
purl and bom-ref are the stated pure functions of the name/version pair, so
they are identical across runs whatever the timestamp or license cache. -/
theorem claim_sbom_components (lf : Lockfile) (lc lc2 : LicenseCache) (ts ts2 : String) :
    (generate_sbom_from_lockfile lf lc ts).components.length = lf.packages.length ∧
    (generate_sbom_from_lockfile lf lc ts).components.map (fun c => (c.purl, c.bom_ref)) =
      lf.packages.map (fun p =>
        (some ("pkg:cargo/" ++ p.name ++ "@" ++ versionToString p.version),
         some (p.name ++ "@" ++ versionToString p.version))) ∧
    (generate_sbom_from_lockfile lf lc ts).components.map (fun c => (c.purl, c.bom_ref)) =
      (generate_sbom_from_lockfile lf lc2 ts2).components.map
        (fun c => (c.purl, c.bom_ref)) := by
  refine ⟨?_, ?_, ?_⟩ <;>
    simp [generate_sbom_eq, List.map_map, Function.comp, componentFor]

/-- C8: a license string containing an ` OR `/` AND ` operator or a slash is
stored verbatim as an `expression`; any other string becomes a structured
`id`; in particular "MIT OR Apache-2.0" is an expression and "MIT" an id. -/
theorem claim_license_classification (s : String) :
    parse_license_expression s =
      (if strContainsSub s " OR " || strContainsSub s " AND " || strContainsChar s '/' then
        [{ license := none, expression := some s }]
      else
        [{ license := some { id := some s, name := none }, expression := none }]) ∧
    parse_license_expression "MIT OR Apache-2.0" =
      [{ license := none, expression := some "MIT OR Apache-2.0" }] ∧
    parse_license_expression "MIT" =
      [{ license := some { id := some "MIT", name := none }, expression := none }] :=
  ⟨rfl, by decide, by decide⟩

/-- C9: bucketing a finding's severity upper-cases the label and increments
exactly one bucket: the named bucket on a recognized label, `unknown` on a
missing or unrecognized one; the histogram total always grows by one. -/
theorem claim_severity_bucketing (counts : SeverityCounts) (sev : Option String) :
    sumCounts (bumpSeverity counts sev) = sumCounts counts + 1 ∧
    (sev = none →
      bumpSeverity counts sev = { counts with unknown := counts.unknown + 1 }) ∧
    (∀ s, sev = some s →
      (toUppercase s = "CRITICAL" →
        bumpSeverity counts sev = { counts with critical := counts.critical + 1 }) ∧
      (toUppercase s = "HIGH" →
        bumpSeverity counts sev = { counts with high := counts.high + 1 }) ∧
      (toUppercase s = "MEDIUM" →
        bumpSeverity counts sev = { counts with medium := counts.medium + 1 }) ∧
      (toUppercase s = "LOW" →
        bumpSeverity counts sev = { counts with low := counts.low + 1 }) ∧
      (toUppercase s ≠ "CRITICAL" → toUppercase s ≠ "HIGH" → toUppercase s ≠ "MEDIUM" →
        toUppercase s ≠ "LOW" →
        bumpSeverity counts sev = { counts with unknown := counts.unknown + 1 })) := by
  refine ⟨sumCounts_bumpSeverity counts sev, fun h => by subst h; rfl, fun s hs => ?_⟩
  subst hs
  refine ⟨fun h => ?_, fun h => ?_, fun h => ?_, fun h => ?_, fun h1 h2 h3 h4 => ?_⟩
  · simp only [bumpSeverity]
    split <;> simp_all
  · simp only [bumpSeverity]
    split <;> simp_all
  · simp only [bumpSeverity]
    split <;> simp_all
  · simp only [bumpSeverity]
    split <;> simp_all
  · simp only [bumpSeverity]

theorem claim_severity_bucketing_witness :
    toUppercase "High" = "HIGH" ∧
    bumpSeverity SeverityCounts.zero (some "High") =
      { SeverityCounts.zero with high := SeverityCounts.zero.high + 1 } :=
  ⟨by decide,
   ((claim_severity_bucketing SeverityCounts.zero (some "High")).2.2 "High" rfl).2.1
     (by decide)⟩

/-- C2: in every report `scan_lockfile` returns, the summary total equals the
sum of the per-package advisory-list lengths, and the five severity buckets
also sum to that total. -/
theorem claim_summary_invariants (s : Scanner) (lf : Lockfile) (r : VulnReport)
    (h : s.scan_lockfile lf = Except.ok r) :
    r.summary.total_vulnerabilities = (r.packages.map (fun p => p.advisories.length)).sum ∧
    r.summary.by_severity.critical + r.summary.by_severity.high +
      r.summary.by_severity.medium + r.summary.by_severity.low +
      r.summary.by_severity.unknown = r.summary.total_vulnerabilities := by
  have h2 := scan_lockfile_eq s lf
  rw [h] at h2
  injection h2 with h3
  have hp : r.packages = lf.packages.filterMap (entryFor s.db) := by rw [h3]
  have ht : r.summary.total_vulnerabilities =
      ((lf.packages.filterMap (entryFor s.db)).map (fun p => p.advisories.length)).sum := by
    rw [h3]
  have hb : r.summary.by_severity =
      lf.packages.foldl (fun c pkg => countsAfter c (findingsForPkg s.db pkg))
        SeverityCounts.zero := by
    rw [h3]
  constructor
  · rw [ht, hp]
  · calc r.summary.by_severity.critical + r.summary.by_severity.high +
        r.summary.by_severity.medium + r.summary.by_severity.low +
        r.summary.by_severity.unknown
        = sumCounts r.summary.by_severity := rfl
      _ = sumCounts (lf.packages.foldl
            (fun c pkg => countsAfter c (findingsForPkg s.db pkg)) SeverityCounts.zero) := by
          rw [hb]
      _ = sumCounts SeverityCounts.zero +
            (lf.packages.map (fun p => (findingsForPkg s.db p).length)).sum :=
          sumCounts_scan_foldl s.db lf.packages SeverityCounts.zero
      _ = (lf.packages.map (fun p => (findingsForPkg s.db p).length)).sum := by
          simp [sumCounts, SeverityCounts.zero]
      _ = r.summary.total_vulnerabilities := by
          rw [ht, sum_entry_lengths]

theorem claim_summary_invariants_witness :
    testScanner.scan_lockfile testLockfile = Except.ok testReport ∧
    (testReport.summary.total_vulnerabilities =
        (testReport.packages.map (fun p => p.advisories.length)).sum ∧
      testReport.summary.by_severity.critical + testReport.summary.by_severity.high +
        testReport.summary.by_severity.medium + testReport.summary.by_severity.low +
        testReport.summary.by_severity.unknown =
        testReport.summary.total_vulnerabilities) :=
  ⟨rfl, claim_summary_invariants testScanner testLockfile testReport rfl⟩

/-- C3: a package contributes a report entry exactly when some actionable
advisory judges it affected: withdrawn/informational advisories never enter
the index, packages whose name no advisory declares get no findings and no
entry, every emitted entry carries a non-empty findings list, and an
actionable affected advisory forces an entry for that package. -/
theorem claim_report_entries (s : Scanner) (lf : Lockfile) (r : VulnReport)
    (h : s.scan_lockfile lf = Except.ok r) :
    (∀ adv : Advisory, (adv.withdrawn.isSome || adv.informational.isSome) = true →
      ∀ name advs, lookupIndex (buildIndex s.db) name = some advs → adv ∉ advs) ∧
    (∀ pkg ∈ lf.packages, (∀ adv ∈ s.db, adv.package ≠ pkg.name) →
      findingsForPkg s.db pkg = [] ∧ ∀ e ∈ r.packages, e.package_name ≠ pkg.name) ∧
    (∀ e ∈ r.packages, e.advisories ≠ []) ∧
    (∀ pkg ∈ lf.packages,
      (∃ adv ∈ s.db, actionable adv = true ∧ adv.package = pkg.name ∧
        is_version_affected pkg.version adv = true) →
      ∃ e ∈ r.packages, e.package_name = pkg.name ∧
        e.package_version = versionToString pkg.version ∧
        e.advisories = findingsForPkg s.db pkg) := by
  have h2 := scan_lockfile_eq s lf
  rw [h] at h2
  injection h2 with h3
  have hp : r.packages = lf.packages.filterMap (entryFor s.db) := by rw [h3]
  refine ⟨?_, ?_, ?_, ?_⟩
  · intro adv hadv name advs hlook hmem
    have hb := lookupIndex_buildIndex s.db name
    rw [hlook] at hb
    simp only [Option.getD_some] at hb
    rw [hb] at hmem
    obtain ⟨_, hact, _⟩ := mem_actionableFor hmem
    simp [actionable, hadv] at hact
  · intro pkg hpkg hnone
    have hfor : actionableFor s.db pkg.name = [] := by
      rw [actionableFor, List.filter_eq_nil_iff]
      intro a ha
      simp only [Bool.and_eq_true, beq_iff_eq, not_and]
      intro _
      exact hnone a ha
    have hfind : findingsForPkg s.db pkg = [] := by
      simp [findingsForPkg, hfor]
    refine ⟨hfind, ?_⟩
    intro e he hname
    rw [hp] at he
    obtain ⟨pkg', hpkg', hentry⟩ := List.mem_filterMap.mp he
    obtain ⟨hnm, _, _, hne⟩ := entryFor_eq_some hentry
    have hsame : pkg'.name = pkg.name := by rw [← hnm, hname]
    have hfor' : actionableFor s.db pkg'.name = [] := by rw [hsame, hfor]
    exact hne (by simp [findingsForPkg, hfor'])
  · intro e he
    rw [hp] at he
    obtain ⟨pkg', _, hentry⟩ := List.mem_filterMap.mp he
    obtain ⟨_, _, hadv, hne⟩ := entryFor_eq_some hentry
    rw [hadv]
    exact hne
  · intro pkg hpkg hex
    obtain ⟨adv, hadvdb, hact, hpkgname, haff⟩ := hex
    have hmem : adv ∈ actionableFor s.db pkg.name := by
      rw [actionableFor, List.mem_filter]
      exact ⟨hadvdb, by simp [hact, hpkgname]⟩
    have hmem2 : adv ∈ (actionableFor s.db pkg.name).filter
        (fun a => is_version_affected pkg.version a) :=
      List.mem_filter.mpr ⟨hmem, haff⟩
    have hne : findingsForPkg s.db pkg ≠ [] := by
      intro hnil
      rw [findingsForPkg, List.map_eq_nil_iff] at hnil
      rw [hnil] at hmem2
      exact List.not_mem_nil adv hmem2
    refine ⟨{ package_name := pkg.name
              package_version := versionToString pkg.version
              advisories := findingsForPkg s.db pkg }, ?_, rfl, rfl, rfl⟩
    rw [hp]
    exact List.mem_filterMap.mpr ⟨pkg, hpkg, entryFor_of_nonempty hne⟩

theorem claim_report_entries_witness :
    testScanner.scan_lockfile testLockfile = Except.ok testReport ∧
    pkgB ∈ testLockfile.packages ∧
    ∃ e ∈ testReport.packages, e.package_name = pkgB.name ∧
      e.package_version = versionToString pkgB.version ∧
      e.advisories = findingsForPkg testScanner.db pkgB := by
  refine ⟨rfl, by decide, ?_⟩
  exact (claim_report_entries testScanner testLockfile testReport rfl).2.2.2 pkgB (by decide)
    ⟨advB, List.Mem.head _, by decide, by decide, by decide⟩

/-- C5: scanning is deterministic — the same scanner and lockfile always give
the same report — and ordered: the report's entries are the lockfile's
packages in lockfile order (filtered to those with findings), and every
entry's findings are its package's findings in database iteration order. -/
theorem claim_scan_deterministic (s : Scanner) (lf : Lockfile) (r : VulnReport)
    (h : s.scan_lockfile lf = Except.ok r) :
    s.scan_lockfile lf = s.scan_lockfile lf ∧
    r.packages = lf.packages.filterMap (entryFor s.db) ∧
    ∀ e ∈ r.packages, ∃ pkg ∈ lf.packages,
      e.package_name = pkg.name ∧ e.package_version = versionToString pkg.version ∧
      e.advisories = findingsForPkg s.db pkg := by
  have h2 := scan_lockfile_eq s lf
  rw [h] at h2
  injection h2 with h3
  have hp : r.packages = lf.packages.filterMap (entryFor s.db) := by rw [h3]
  refine ⟨rfl, hp, ?_⟩
  intro e he
  rw [hp] at he
  obtain ⟨pkg, hpkg, hentry⟩ := List.mem_filterMap.mp he
  obtain ⟨hn, hv, ha, _⟩ := entryFor_eq_some hentry
  exact ⟨pkg, hpkg, hn, hv, ha⟩

theorem claim_scan_deterministic_witness :
    testScanner.scan_lockfile testLockfile = Except.ok testReport ∧
    testReport.packages = testLockfile.packages.filterMap (entryFor testScanner.db) :=
  ⟨rfl, (claim_scan_deterministic testScanner testLockfile testReport rfl).2.1⟩

/-- C7: every dependency edge resolves its name against the same snapshot,
taking the first package with that name (`find?`) and dropping unresolvable
names (`filterMap`); consequently every reference in a `dependsOn` list is the
bom-ref of a component of the same SBOM. -/
theorem claim_sbom_dependency_resolution (lf : Lockfile) (lc : LicenseCache) (ts : String) :
    (generate_sbom_from_lockfile lf lc ts).dependencies =
      lf.packages.map (fun package =>
        { reference := package.name ++ "@" ++ versionToString package.version
          depends_on :=
            if (package.dependencies.filterMap (resolvedRef lf)).isEmpty then none
            else some (package.dependencies.filterMap (resolvedRef lf)) }) ∧
    ∀ d ∈ (generate_sbom_from_lockfile lf lc ts).dependencies,
      ∀ ref ∈ d.depends_on.getD [],
        ∃ c ∈ (generate_sbom_from_lockfile lf lc ts).components, c.bom_ref = some ref := by
  constructor
  · rw [generate_sbom_eq]
    show lf.packages.map (dependencyFor lf) = _
    apply List.map_congr_left
    intro p _
    exact dependencyFor_eq lf p
  · intro d hd ref href
    rw [generate_sbom_eq] at hd
    simp only [List.mem_map] at hd
    obtain ⟨pkg, hpkg, hdp⟩ := hd
    subst hdp
    rw [dependencyFor_eq] at href
    by_cases hres : (pkg.dependencies.filterMap (resolvedRef lf)).isEmpty
    · simp [hres] at href
    · simp only [hres, Bool.false_eq_true, if_false, Option.getD_some] at href
      obtain ⟨dep, hdep, hres2⟩ := List.mem_filterMap.mp href
      rw [resolvedRef] at hres2
      cases hfind : lf.packages.find? (fun p => p.name == dep.name) with
      | none =>
        rw [hfind] at hres2
        simp at hres2
      | some dp =>
        rw [hfind] at hres2
        have hrefeq : dep.name ++ "@" ++ versionToString dp.version = ref := by
          simpa using hres2
        have hdpmem : dp ∈ lf.packages := List.mem_of_find?_eq_some hfind
        have hdpname : dp.name = dep.name := by
          have hpred := List.find?_some hfind
          simpa [beq_iff_eq] using hpred
        refine ⟨componentFor lc dp, ?_, ?_⟩
        · rw [generate_sbom_eq]
          exact List.mem_map.mpr ⟨dp, hdpmem, rfl⟩
        · show (componentFor lc dp).bom_ref = some ref
          simp [componentFor, hdpname, hrefeq]

theorem claim_sbom_dependency_resolution_witness :
    dependencyFor testLockfile pkgA ∈
      (generate_sbom_from_lockfile testLockfile [] "2024").dependencies ∧
    "b@2.0.0" ∈ (dependencyFor testLockfile pkgA).depends_on.getD [] ∧
    ∃ c ∈ (generate_sbom_from_lockfile testLockfile [] "2024").components,
      c.bom_ref = some "b@2.0.0" := by
  refine ⟨by decide, by decide, ?_⟩
  exact (claim_sbom_dependency_resolution testLockfile [] "2024").2
    (dependencyFor testLockfile pkgA) (by decide) "b@2.0.0" (by decide)

/-- C10: the SBOM carries exactly one dependency entry per snapshot package
(so the dependencies and components lists have equal length), and an entry's
`dependsOn` is present exactly when at least one direct dependency resolved —
never as an empty-but-present collection. -/
theorem claim_sbom_dependency_entries (lf : Lockfile) (lc : LicenseCache) (ts : String) :
    (generate_sbom_from_lockfile lf lc ts).dependencies =
      lf.packages.map (dependencyFor lf) ∧
    (generate_sbom_from_lockfile lf lc ts).dependencies.length =
      (generate_sbom_from_lockfile lf lc ts).components.length ∧
    (generate_sbom_from_lockfile lf lc ts).dependencies.length = lf.packages.length ∧
    ∀ package : Package,
      (dependencyFor lf package).depends_on ≠ some [] ∧
      ((dependencyFor lf package).depends_on = none ↔
        package.dependencies.filterMap (resolvedRef lf) = []) := by
  refine ⟨by rw [generate_sbom_eq], ?_, ?_, ?_⟩
  · rw [generate_sbom_eq]
    simp
  · rw [generate_sbom_eq]
    simp
  · intro package
    rw [dependencyFor_eq]
    by_cases hres : (package.dependencies.filterMap (resolvedRef lf)).isEmpty
    · rw [List.isEmpty_iff] at hres
      simp [hres]
    · have hne : package.dependencies.filterMap (resolvedRef lf) ≠ [] := by
        intro hnil
        rw [← List.isEmpty_iff] at hnil
        exact hres hnil
      simp [hres, hne]

theorem claim_sbom_dependency_entries_witness :
    (dependencyFor testLockfile pkgA).depends_on = some ["b@2.0.0"] ∧
    (dependencyFor testLockfile pkgA).depends_on ≠ some [] ∧
    ((dependencyFor testLockfile pkgB).depends_on = none ↔
      pkgB.dependencies.filterMap (resolvedRef testLockfile) = []) :=
  ⟨by decide,
   ((claim_sbom_dependency_entries testLockfile [] "2024").2.2.2 pkgA).1,
   ((claim_sbom_dependency_entries testLockfile [] "2024").2.2.2 pkgB).2⟩

end VulnScan
